import Mathlib

/-!
Verification development for the `mywallet` synchronization engine
(`src/hooks/use-convex-sync.ts`).  The merge engine, the sync
orchestrator's control flow, and the salt derivation are embedded as
executable Lean definitions, and the documented properties are proved
about them.
-/

set_option autoImplicit false

namespace MyWallet

/-! ## Data model

An `Entry` models one element of any of the synced collections
(transactions, budgets, goals, debt accounts, credit accounts,
debt/credit transactions, categories).  The source is untyped
JavaScript; the fields below are the ones the merge engine reads:
`id`, the three timestamp candidates, and `isDefault` (only meaningful
for categories).  `name` stands for the remaining payload
(description/name/amount), which the merge copies around verbatim.
Timestamp fields are `Option Nat`: `none` models an absent field. -/

structure Entry where
  id : String
  name : String
  lastModified : Option Nat
  timeEquivalent : Option Nat
  createdAt : Option Nat
  isDefault : Bool
deriving DecidableEq

/-- JavaScript `a || b` for an optional number `a`: falls through on a
missing field and on the falsy value `0`. -/
def jsOr (v : Option Nat) (fallback : Nat) : Nat :=
  match v with
  | some n => if n = 0 then fallback else n
  | none => fallback

/-- Line 327: `item?.lastModified || item?.timeEquivalent || item?.createdAt || 0`. -/
def getTimestamp (item : Entry) : Nat :=
  jsOr item.lastModified (jsOr item.timeEquivalent (jsOr item.createdAt 0))

/-- `localMap.has(i)` where `localMap` is built from the list `l` keyed by `id`. -/
def hasId (l : List Entry) (i : String) : Bool :=
  l.any (fun e => e.id == i)

/-- `localMap.get(i)`: a JS `Map` built by insertion keeps the last
entry for a repeated key, so `get` returns the last occurrence. -/
def mapGet (l : List Entry) (i : String) : Option Entry :=
  (l.filter (fun e => e.id == i)).getLast?

/-- `const index = merged.findIndex(t => t.id === remote.id); if (index !== -1) merged[index] = remote`:
replace the first entry whose id matches `r.id` by `r` (no match: unchanged). -/
def replaceFirstById : List Entry → Entry → List Entry
  | [], _ => []
  | a :: t, r => if a.id == r.id then r :: t else a :: replaceFirstById t r

/-- One iteration of the per-collection merge loop (lines 342-363 for
transactions; the budget/goal/debt-account/credit-account/category
blocks at 376-387, 400-410, 428-438, 454-468, 482-496 are verbatim
copies of the same logic).  The state is the merged list so far paired
with the merge log.  The unused `remoteMap` of line 336 is omitted. -/
def mergeEntryStep (kind : String) (localL : List Entry) (st : List Entry × List String)
    (r : Entry) : List Entry × List String :=
  if hasId localL r.id then
    match mapGet localL r.id with
    | some localVersion =>
      if getTimestamp r > getTimestamp localVersion then
        if hasId st.1 r.id then
          (replaceFirstById st.1 r, st.2 ++ ["Updated " ++ kind ++ ": " ++ r.name])
        else st
      else st
    | none => st
  else
    (st.1 ++ [r], st.2 ++ ["Added " ++ kind ++ ": " ++ r.name])

/-- The per-collection merge loop: start from a copy of the local list
(the caller passes `(localL, log)`), fold over the remote list. -/
def mergeCollection (kind : String) (localL : List Entry) (remoteL : List Entry)
    (st : List Entry × List String) : List Entry × List String :=
  remoteL.foldl (mergeEntryStep kind localL) st

/-- One iteration of the append-only debt/credit-transaction loop
(lines 510-517): ids already present locally are never touched. -/
def mergeAppendStep (localL : List Entry) (st : List Entry × List String)
    (r : Entry) : List Entry × List String :=
  if hasId localL r.id then st
  else (st.1 ++ [r], st.2 ++ ["Added debt/credit transaction: " ++ r.name])

/-- Lines 503-520: append-only merge of debt/credit transactions. -/
def mergeDebtCredit (localL : List Entry) (remoteL : List Entry)
    (st : List Entry × List String) : List Entry × List String :=
  remoteL.foldl (mergeAppendStep localL) st

/-- The user profile: a record with optional fields; `name` and
`currency` stand for the shallow-merged payload fields, `lastModified`
is the one the merge treats specially. -/
structure UserProfile where
  name : Option String
  currency : Option String
  lastModified : Option Nat
deriving DecidableEq

/-- A wallet snapshot as seen by `mergeWalletData`.  A collection field
that is absent or not an array is modelled as `none` (the code guards
each block with `remoteData.X && Array.isArray(remoteData.X)`). -/
structure Snapshot where
  userProfile : Option UserProfile
  transactions : Option (List Entry)
  budgets : Option (List Entry)
  goals : Option (List Entry)
  debtAccounts : Option (List Entry)
  creditAccounts : Option (List Entry)
  debtCreditTransactions : Option (List Entry)
  categories : Option (List Entry)
  emergencyFund : Option Nat
  exportedAt : Nat
deriving DecidableEq

structure MergeResult where
  merged : Snapshot
  conflicts : List String
  mergeLog : List String
deriving DecidableEq

/-- One guarded last-writer-wins collection block of `mergeWalletData`
(e.g. lines 369-390 for budgets): skipped entirely when the remote
side does not carry the collection, otherwise `localData.X || []` is
merged with the remote list. -/
def mergeOptCollection (kind : String) (localO remoteO : Option (List Entry))
    (log : List String) : Option (List Entry) × List String :=
  match remoteO with
  | some remoteL =>
    let p := mergeCollection kind (localO.getD []) remoteL (localO.getD [], log)
    (some p.1, p.2)
  | none => (localO, log)

/-- Lines 416-444: the categories block.  Both sides are split into
default and user-created entries, the user-created entries are merged
with the standard rule, and the local default categories are
re-attached in front. -/
def mergeOptCategories (localO remoteO : Option (List Entry))
    (log : List String) : Option (List Entry) × List String :=
  match remoteO with
  | some remoteC =>
    let localC := localO.getD []
    let localUser := localC.filter (fun c => !c.isDefault)
    let remoteUser := remoteC.filter (fun c => !c.isDefault)
    let p := mergeCollection "user category" localUser remoteUser (localUser, log)
    let defaults := localC.filter (fun c => c.isDefault)
    (some (defaults ++ p.1), p.2)
  | none => (localO, log)

/-- Lines 503-520 wrapped in the `Array.isArray` guard. -/
def mergeOptDebtCredit (localO remoteO : Option (List Entry))
    (log : List String) : Option (List Entry) × List String :=
  match remoteO with
  | some remoteL =>
    let p := mergeDebtCredit (localO.getD []) remoteL (localO.getD [], log)
    (some p.1, p.2)
  | none => (localO, log)

/-- Lines 522-533: the emergency fund keeps the higher value and logs
which side won, logging nothing when the two values are equal. -/
def mergeEmergencyFund (localO remoteO : Option Nat)
    (log : List String) : Option Nat × List String :=
  match remoteO with
  | some remoteFund =>
    let localFund := jsOr localO 0
    if remoteFund > localFund then
      (some remoteFund,
       log ++ ["Updated emergency fund: $" ++ toString remoteFund ++
               " (was $" ++ toString localFund ++ ")"])
    else if remoteFund < localFund then
      (localO,
       log ++ ["Kept local emergency fund: $" ++ toString localFund ++
               " (remote had $" ++ toString remoteFund ++ ")"])
    else (localO, log)
  | none => (localO, log)

/-- Lines 536-547: shallow field-wise profile merge, remote fields
overlaying local ones, with `lastModified` forced to the maximum of
the two (absent values reading as `0`). -/
def mergeUserProfile (localO : Option UserProfile) (remoteO : Option UserProfile)
    (log : List String) : Option UserProfile × List String :=
  match remoteO with
  | some rp =>
    (some { name := rp.name.or (localO.bind UserProfile.name)
            currency := rp.currency.or (localO.bind UserProfile.currency)
            lastModified := some (max (jsOr (localO.bind UserProfile.lastModified) 0)
                                      (jsOr rp.lastModified 0)) },
     log ++ ["Merged user profile settings"])
  | none => (localO, log)

/-- Lines 321-550: the smart merge.  `merged` starts as a copy of the
local snapshot; each block overwrites one field when the remote side
carries it; `conflicts` is never populated. -/
def mergeWalletData (localData remoteData : Snapshot) : MergeResult :=
  let s1 := mergeOptCollection "transaction" localData.transactions remoteData.transactions []
  let s2 := mergeOptCollection "budget" localData.budgets remoteData.budgets s1.2
  let s3 := mergeOptCollection "goal" localData.goals remoteData.goals s2.2
  let s4 := mergeOptCategories localData.categories remoteData.categories s3.2
  let s5 := mergeOptCollection "debt account" localData.debtAccounts remoteData.debtAccounts s4.2
  let s6 := mergeOptCollection "credit account" localData.creditAccounts remoteData.creditAccounts s5.2
  let s7 := mergeOptDebtCredit localData.debtCreditTransactions remoteData.debtCreditTransactions s6.2
  let s8 := mergeEmergencyFund localData.emergencyFund remoteData.emergencyFund s7.2
  let s9 := mergeUserProfile localData.userProfile remoteData.userProfile s8.2
  { merged :=
      { userProfile := s9.1
        transactions := s1.1
        budgets := s2.1
        goals := s3.1
        debtAccounts := s5.1
        creditAccounts := s6.1
        debtCreditTransactions := s7.1
        categories := s4.1
        emergencyFund := s8.1
        exportedAt := localData.exportedAt }
    conflicts := []
    mergeLog := s9.2 }

/-! ## Sync orchestrator -/

inductive SyncAction where
  | upload
  | download
deriving DecidableEq

/-- The part of the remote record the smart-sync check reads. -/
structure RemoteMeta where
  lastModified : Nat
deriving DecidableEq

/-- Line 724: `!lastSyncTime || (remoteTime && remoteTime > parseInt(lastSyncTime))`.
An absent stored last-sync time is `none`; a falsy (zero) remote
timestamp blocks the download. -/
def shouldDownload (lastSyncTime : Option Nat) (remoteTime : Nat) : Bool :=
  match lastSyncTime with
  | none => true
  | some t => if remoteTime = 0 then false else decide (remoteTime > t)

/-- Lines 699-750: one automatic smart-sync cycle, as the sequence of
remote operations it performs.  The upload is always attempted first;
a failed upload returns before any download; a download happens only
when a remote record exists and `shouldDownload` approves it. -/
def performSmartSync (uploadOk : Bool) (latest : Option RemoteMeta)
    (lastSyncTime : Option Nat) : List SyncAction :=
  if uploadOk then
    match latest with
    | some meta =>
      if shouldDownload lastSyncTime meta.lastModified then
        [SyncAction.upload, SyncAction.download]
      else [SyncAction.upload]
    | none => [SyncAction.upload]
  else [SyncAction.upload]

structure SyncState where
  isEnabled : Bool
  isPaused : Bool
  isSyncing : Bool
  lastSyncTime : Option Nat
  error : Option String
deriving DecidableEq

/-- The persisted localStorage keys the sync hook uses:
`convex_sync_enabled`, `convex_sync_password`, `convex_last_sync_time`,
`convex_device_id`, `convex_device_name`, `convex_sync_salt`,
`convex_sync_paused`.  `none` models an absent key. -/
structure LocalKV where
  syncEnabled : Option String
  syncPassword : Option String
  lastSyncTimeKey : Option Nat
  deviceId : Option String
  deviceName : Option String
  syncSalt : Option String
  syncPaused : Option String
deriving DecidableEq

/-- The initial value of the `SyncState` react state (lines 32-38). -/
def initialSyncState : SyncState :=
  { isEnabled := false, isPaused := false, isSyncing := false,
    lastSyncTime := none, error := none }

/-- Lines 219-249: `disableSync` removes the enabled flag, the stored
manual passphrase and the last-sync marker, resets the in-memory state,
and reports success. -/
def disableSync (kv : LocalKV) : Bool × SyncState × LocalKV :=
  (true, initialSyncState,
   { kv with syncEnabled := none, syncPassword := none, lastSyncTimeKey := none })

/-- Lines 91-124: `getDeviceInfo` persists a fresh id/name when absent
and reuses the stored ones otherwise. -/
def getDeviceInfo (kv : LocalKV) (freshId freshName : String) : String × String × LocalKV :=
  let id := kv.deviceId.getD freshId
  let nm := kv.deviceName.getD freshName
  (id, nm, { kv with deviceId := some id, deviceName := some nm })

/-- Where the upload attempt of `syncToConvex` can fail: the encryption
step (line 279), the `storeWalletData` mutation (line 283), the
`updateSyncMetadata` mutation (line 292), or nowhere. -/
inductive UploadOutcome where
  | encryptFail
  | storeFail
  | metaFail
  | ok
deriving DecidableEq

/-- The observable result of one `syncToConvex` call: the returned
record, the final react state, the final persisted keys, and the remote
mutations that were issued. -/
structure SyncToResult where
  success : Bool
  resultError : Option String
  state : SyncState
  kv : LocalKV
  remoteCalls : List String
deriving DecidableEq

/-- Lines 252-318: `syncToConvex`.  The guard (line 253) returns a
failure without touching anything; afterwards `isSyncing` is set, the
payload is encrypted and pushed, and either the success path records
the new sync time or the catch block stores the error message. -/
def syncToConvex (isAuthenticated userPresent : Bool) (st : SyncState) (kv : LocalKV)
    (outcome : UploadOutcome) (freshId freshName : String) (now : Nat) : SyncToResult :=
  if !isAuthenticated || !userPresent || !st.isEnabled then
    { success := false, resultError := some "Sync not enabled or user not authenticated",
      state := st, kv := kv, remoteCalls := [] }
  else
    let st1 : SyncState := { st with isSyncing := true, error := none }
    match outcome with
    | .encryptFail =>
      { success := false, resultError := some "Encryption failed",
        state := { st1 with isSyncing := false, error := some "Encryption failed" },
        kv := kv, remoteCalls := [] }
    | .storeFail =>
      let d := getDeviceInfo kv freshId freshName
      { success := false, resultError := some "storeWalletData failed",
        state := { st1 with isSyncing := false, error := some "storeWalletData failed" },
        kv := d.2.2, remoteCalls := ["storeWalletData"] }
    | .metaFail =>
      let d := getDeviceInfo kv freshId freshName
      { success := false, resultError := some "updateSyncMetadata failed",
        state := { st1 with isSyncing := false, error := some "updateSyncMetadata failed" },
        kv := d.2.2, remoteCalls := ["storeWalletData", "updateSyncMetadata"] }
    | .ok =>
      let d := getDeviceInfo kv freshId freshName
      { success := true, resultError := none,
        state := { st1 with isSyncing := false, lastSyncTime := some now },
        kv := { d.2.2 with lastSyncTimeKey := some now },
        remoteCalls := ["storeWalletData", "updateSyncMetadata"] }

/-! ## Salt derivation -/

/-- UTF-8 bytes of a string, as naturals (`new TextEncoder().encode(s)`).
This is exactly the byte content of `String.toUTF8`
(whose definition is `⟨⟨a.data.flatMap utf8EncodeChar⟩⟩`). -/
def utf8Bytes (s : String) : List Nat :=
  (s.data.flatMap String.utf8EncodeChar).map (fun b => b.toNat)

/-- Lines 127-135: despite the adjacent comment mentioning SHA-256, the
salt is just `encoder.encode(userId + "_" + userEmail + "_convex_sync_salt").slice(0, 32)`:
the first (at most) 32 bytes of the UTF-8 encoding, with no hashing. -/
def generateConsistentSalt (userId userEmail : String) : List Nat :=
  (utf8Bytes (userId ++ "_" ++ userEmail ++ "_convex_sync_salt")).take 32

/-! ## Spec-side definitions used for comparison -/

/-- `specEffectiveTimestamp` follows the words of claim C3: the entry's
`lastModified` field if present, else `timeEquivalent`, else
`createdAt`, else zero — presence of the field, not JS truthiness. -/
def specEffectiveTimestamp (item : Entry) : Nat :=
  item.lastModified.getD (item.timeEquivalent.getD (item.createdAt.getD 0))

/-- Each entity carries a globally unique id (spec §3 invariant). -/
def uniqueIds (l : List Entry) : Prop := (l.map Entry.id).Nodup

instance (l : List Entry) : Decidable (uniqueIds l) := by
  unfold uniqueIds; infer_instance

/-- The id `i` occurs in an optional collection (absent = empty). -/
def idPresent (o : Option (List Entry)) (i : String) : Bool :=
  hasId (o.getD []) i

/-! ## Basic lemmas about the merge primitives -/

theorem hasId_cons (a : Entry) (t : List Entry) (i : String) :
    hasId (a :: t) i = ((a.id == i) || hasId t i) := by
  simp [hasId]

theorem hasId_append (l1 l2 : List Entry) (i : String) :
    hasId (l1 ++ l2) i = (hasId l1 i || hasId l2 i) := by
  simp [hasId]

theorem hasId_of_mem (l : List Entry) (e : Entry) (he : e ∈ l) :
    hasId l e.id = true := by
  simp only [hasId, List.any_eq_true]
  exact ⟨e, he, by simp⟩

theorem hasId_replaceFirstById (l : List Entry) (r : Entry) (i : String) :
    hasId (replaceFirstById l r) i = hasId l i := by
  induction l with
  | nil => rfl
  | cons a t ih =>
    simp only [replaceFirstById]
    split
    · next h => simp [hasId_cons, eq_of_beq h]
    · next h => simp [hasId_cons, ih]

theorem mem_replaceFirstById_of_ne (l : List Entry) (r e : Entry)
    (he : e ∈ l) (hne : e.id ≠ r.id) : e ∈ replaceFirstById l r := by
  induction l with
  | nil => cases he
  | cons a t ih =>
    simp only [replaceFirstById]
    split
    · next ha =>
      rcases List.mem_cons.1 he with rfl | ht
      · exact absurd (eq_of_beq ha) hne
      · exact List.mem_cons_of_mem _ ht
    · next ha =>
      rcases List.mem_cons.1 he with rfl | ht
      · exact List.mem_cons_self _ _
      · exact List.mem_cons_of_mem _ (ih ht)

theorem filter_replaceFirstById_ne (l : List Entry) (r : Entry) (i : String)
    (h : (r.id == i) = false) :
    (replaceFirstById l r).filter (fun e => e.id == i)
      = l.filter (fun e => e.id == i) := by
  induction l with
  | nil => rfl
  | cons a t ih =>
    simp only [replaceFirstById]
    split
    · next ha =>
      have hae : a.id = r.id := eq_of_beq ha
      simp [List.filter_cons, hae, h]
    · next ha => simp [List.filter_cons, ih]

theorem filter_replaceFirstById_eq (l : List Entry) (r x : Entry)
    (hid : r.id = x.id)
    (h : l.filter (fun e => e.id == x.id) = [x]) :
    (replaceFirstById l r).filter (fun e => e.id == x.id) = [r] := by
  induction l with
  | nil => simp at h
  | cons a t ih =>
    simp only [replaceFirstById]
    split
    · next ha =>
      have hax : a.id = x.id := (eq_of_beq ha).trans hid
      rw [List.filter_cons_of_pos (by simp [hax])] at h
      rw [List.filter_cons_of_pos (by simp [hid])]
      simpa using congrArg List.tail h
    · next ha =>
      have hax : (a.id == x.id) = false := by
        rcases h2 : a.id == x.id with _ | _
        · rfl
        · exact absurd (beq_iff_eq.2 ((eq_of_beq h2).trans hid.symm)) (by simp [ha])
      rw [List.filter_cons_of_neg (by simp [hax])] at h
      rw [List.filter_cons_of_neg (by simp [hax])]
      exact ih h

theorem hasId_of_filter_eq (l : List Entry) (x : Entry) (i : String)
    (h : l.filter (fun e => e.id == i) = [x]) : hasId l i = true := by
  have hx : x ∈ l.filter (fun e => e.id == i) := by rw [h]; exact List.mem_singleton.2 rfl
  have := List.mem_filter.1 hx
  simp only [hasId, List.any_eq_true]
  exact ⟨x, this.1, this.2⟩

/-! ## Lemmas about unique ids -/

theorem uniqueIds_filter (l : List Entry) (p : Entry → Bool) (hu : uniqueIds l) :
    uniqueIds (l.filter p) := by
  unfold uniqueIds at *
  exact ((List.filter_sublist (p := p) l).map Entry.id).nodup hu

theorem uniq_filter_self (l : List Entry) (e : Entry)
    (hu : uniqueIds l) (he : e ∈ l) :
    l.filter (fun x => x.id == e.id) = [e] := by
  induction l with
  | nil => cases he
  | cons a t ih =>
    have hu2 := (List.nodup_cons.1 hu)
    rcases List.mem_cons.1 he with rfl | ht
    · rw [List.filter_cons_of_pos (by simp)]
      have : t.filter (fun x => x.id == e.id) = [] := by
        rw [List.filter_eq_nil_iff]
        intro x hx hbeq
        exact hu2.1 (List.mem_map.2 ⟨x, hx, eq_of_beq hbeq⟩)
      rw [this]
    · have hne : (a.id == e.id) = false := by
        rcases h2 : a.id == e.id with _ | _
        · rfl
        · exact absurd (List.mem_map.2 ⟨e, ht, (eq_of_beq h2).symm⟩) hu2.1
      rw [List.filter_cons_of_neg (by simp [hne])]
      exact ih hu2.2 ht

theorem mapGet_eq_of_uniq (l : List Entry) (e : Entry)
    (hu : uniqueIds l) (he : e ∈ l) : mapGet l e.id = some e := by
  unfold mapGet
  rw [uniq_filter_self l e hu he]
  rfl

theorem uniq_mem_id_eq (l : List Entry) (e x : Entry)
    (hu : uniqueIds l) (he : e ∈ l) (hx : x ∈ l) (hid : x.id = e.id) : x = e := by
  have : x ∈ l.filter (fun y => y.id == e.id) := List.mem_filter.2 ⟨hx, by simp [hid]⟩
  rw [uniq_filter_self l e hu he] at this
  exact List.mem_singleton.1 this

theorem uniq_split (l : List Entry) (r : Entry) (hu : uniqueIds l) (hr : r ∈ l) :
    ∃ as bs, l = as ++ r :: bs
      ∧ (∀ x ∈ as, (x.id == r.id) = false)
      ∧ (∀ x ∈ bs, (x.id == r.id) = false) := by
  obtain ⟨as, bs, rfl⟩ := List.append_of_mem hr
  refine ⟨as, bs, rfl, ?_, ?_⟩
  · intro x hx
    rcases h2 : x.id == r.id with _ | _
    · rfl
    · exfalso
      have hmem : r.id ∈ (as.map Entry.id) := List.mem_map.2 ⟨x, hx, eq_of_beq h2⟩
      unfold uniqueIds at hu
      rw [List.map_append, List.nodup_append] at hu
      exact hu.2.2 hmem (by simp)
  · intro x hx
    rcases h2 : x.id == r.id with _ | _
    · rfl
    · exfalso
      have : uniqueIds (r :: bs) := by
        unfold uniqueIds at hu ⊢
        rw [List.map_append] at hu
        exact hu.of_append_right
      unfold uniqueIds at this
      exact (List.nodup_cons.1 this).1
        (List.mem_map.2 ⟨x, hx, (eq_of_beq h2)⟩)

/-! ## Lemmas about the last-writer-wins collection loop -/

theorem mergeEntryStep_log (kind : String) (localL : List Entry)
    (st : List Entry × List String) (r : Entry) :
    mergeEntryStep kind localL st r
      = ((mergeEntryStep kind localL (st.1, []) r).1,
         st.2 ++ (mergeEntryStep kind localL (st.1, []) r).2) := by
  obtain ⟨acc, log⟩ := st
  by_cases h1 : hasId localL r.id = true
  · cases h2 : mapGet localL r.id with
    | none => simp [mergeEntryStep, h1, h2]
    | some lv =>
      by_cases h3 : getTimestamp r > getTimestamp lv
      · by_cases h4 : hasId acc r.id = true
        · simp [mergeEntryStep, h1, h2, h3, h4]
        · simp [mergeEntryStep, h1, h2, h3, h4]
      · simp [mergeEntryStep, h1, h2, h3]
  · simp [mergeEntryStep, h1]

theorem mergeCollection_log (kind : String) (localL remoteL : List Entry)
    (acc : List Entry) (log : List String) :
    mergeCollection kind localL remoteL (acc, log)
      = ((mergeCollection kind localL remoteL (acc, [])).1,
         log ++ (mergeCollection kind localL remoteL (acc, [])).2) := by
  induction remoteL generalizing acc log with
  | nil => simp [mergeCollection]
  | cons r rs ih =>
    simp only [mergeCollection, List.foldl_cons] at *
    rw [mergeEntryStep_log kind localL (acc, log) r,
        mergeEntryStep_log kind localL (acc, []) r, List.nil_append]
    rw [ih, ih (mergeEntryStep kind localL (acc, []) r).1
            (mergeEntryStep kind localL (acc, []) r).2]
    simp [List.append_assoc]

theorem mergeEntryStep_fst_hasId_mono (kind : String) (localL : List Entry)
    (st : List Entry × List String) (r : Entry) (i : String)
    (h : hasId st.1 i = true) :
    hasId (mergeEntryStep kind localL st r).1 i = true := by
  by_cases h1 : hasId localL r.id = true
  · cases h2 : mapGet localL r.id with
    | none => simpa [mergeEntryStep, h1, h2] using h
    | some lv =>
      by_cases h3 : getTimestamp r > getTimestamp lv
      · by_cases h4 : hasId st.1 r.id = true
        · simpa [mergeEntryStep, h1, h2, h3, h4, hasId_replaceFirstById] using h
        · simpa [mergeEntryStep, h1, h2, h3, h4] using h
      · simpa [mergeEntryStep, h1, h2, h3] using h
  · simp [mergeEntryStep, h1, hasId_append, h]

theorem mergeEntryStep_fst_adds (kind : String) (localL : List Entry)
    (st : List Entry × List String) (r : Entry)
    (h1 : hasId localL r.id = false) :
    hasId (mergeEntryStep kind localL st r).1 r.id = true := by
  simp [mergeEntryStep, h1, hasId_append, hasId_cons]

theorem mergeCollection_fst_hasId (kind : String) (localL : List Entry)
    (remoteL : List Entry) (st : List Entry × List String) (i : String)
    (hloc : hasId localL i = true → hasId st.1 i = true)
    (h : hasId st.1 i = true ∨ (remoteL.any (fun e => e.id == i)) = true) :
    hasId (mergeCollection kind localL remoteL st).1 i = true := by
  induction remoteL generalizing st with
  | nil =>
    simp only [mergeCollection, List.foldl_nil]
    simpa using h.resolve_right (by simp)
  | cons r rs ih =>
    simp only [mergeCollection, List.foldl_cons] at *
    apply ih
    · intro hl
      exact mergeEntryStep_fst_hasId_mono kind localL st r i (hloc hl)
    · rcases h with h | h
      · exact Or.inl (mergeEntryStep_fst_hasId_mono kind localL st r i h)
      · have h2 : (r.id == i) = true ∨ (rs.any fun e => e.id == i) = true := by
          simpa [List.any_cons, Bool.or_eq_true] using h
        rcases h2 with hri | hrs
        · rcases h1 : hasId localL r.id with _ | _
          · left
            have := mergeEntryStep_fst_adds kind localL st r h1
            rwa [eq_of_beq hri] at this
          · left
            have hacc : hasId st.1 i = true := hloc ((eq_of_beq hri) ▸ h1)
            exact mergeEntryStep_fst_hasId_mono kind localL st r i hacc
        · exact Or.inr hrs

theorem mergeCollection_cons (kind : String) (localL : List Entry)
    (r : Entry) (rs : List Entry) (st : List Entry × List String) :
    mergeCollection kind localL (r :: rs) st
      = mergeCollection kind localL rs (mergeEntryStep kind localL st r) := rfl

theorem mergeCollection_append (kind : String) (localL : List Entry)
    (l1 l2 : List Entry) (st : List Entry × List String) :
    mergeCollection kind localL (l1 ++ l2) st
      = mergeCollection kind localL l2 (mergeCollection kind localL l1 st) := by
  simp [mergeCollection, List.foldl_append]

theorem mergeEntryStep_fst_filter_ne (kind : String) (localL : List Entry)
    (st : List Entry × List String) (r : Entry) (i : String)
    (hne : (r.id == i) = false) :
    (mergeEntryStep kind localL st r).1.filter (fun e => e.id == i)
      = st.1.filter (fun e => e.id == i) := by
  by_cases h1 : hasId localL r.id = true
  · cases h2 : mapGet localL r.id with
    | none => simp [mergeEntryStep, h1, h2]
    | some lv =>
      by_cases h3 : getTimestamp r > getTimestamp lv
      · by_cases h4 : hasId st.1 r.id = true
        · simp [mergeEntryStep, h1, h2, h3, h4, filter_replaceFirstById_ne _ _ _ hne]
        · simp [mergeEntryStep, h1, h2, h3, h4]
      · simp [mergeEntryStep, h1, h2, h3]
  · simp [mergeEntryStep, h1, List.filter_append, hne]

theorem mergeCollection_fst_filter_untouched (kind : String) (localL remoteL : List Entry)
    (st : List Entry × List String) (i : String)
    (h : ∀ x ∈ remoteL, (x.id == i) = false) :
    (mergeCollection kind localL remoteL st).1.filter (fun e => e.id == i)
      = st.1.filter (fun e => e.id == i) := by
  induction remoteL generalizing st with
  | nil => simp [mergeCollection]
  | cons r rs ih =>
    simp only [mergeCollection, List.foldl_cons] at *
    rw [ih _ (fun x hx => h x (List.mem_cons_of_mem _ hx)),
        mergeEntryStep_fst_filter_ne kind localL st r i (h r (List.mem_cons_self _ _))]

theorem mergeCollection_self (kind : String) (ll rl : List Entry)
    (st : List Entry × List String)
    (hu : uniqueIds ll) (hsub : ∀ r ∈ rl, r ∈ ll) :
    mergeCollection kind ll rl st = st := by
  induction rl generalizing st with
  | nil => rfl
  | cons r rs ih =>
    simp only [mergeCollection, List.foldl_cons] at *
    have hr : r ∈ ll := hsub r (List.mem_cons_self _ _)
    have hstep : mergeEntryStep kind ll st r = st := by
      simp [mergeEntryStep, hasId_of_mem ll r hr, mapGet_eq_of_uniq ll r hu hr]
    rw [hstep]
    exact ih _ (fun x hx => hsub x (List.mem_cons_of_mem _ hx))

theorem mergeCollection_fst_mem_keep (kind : String) (ll rl : List Entry)
    (st : List Entry × List String) (e : Entry)
    (hu : uniqueIds ll) (hel : e ∈ ll) (hst : e ∈ st.1)
    (hts : ∀ r ∈ rl, r.id = e.id → ¬(getTimestamp r > getTimestamp e)) :
    e ∈ (mergeCollection kind ll rl st).1 := by
  induction rl generalizing st with
  | nil => simpa [mergeCollection] using hst
  | cons r rs ih =>
    simp only [mergeCollection, List.foldl_cons] at *
    refine ih _ ?_ (fun x hx hxe => hts x (List.mem_cons_of_mem _ hx) hxe)
    by_cases hre : r.id = e.id
    · have h1 : hasId ll r.id = true := hre ▸ hasId_of_mem ll e hel
      have h2 : mapGet ll r.id = some e := hre ▸ mapGet_eq_of_uniq ll e hu hel
      have h3 : ¬(getTimestamp r > getTimestamp e) := hts r (List.mem_cons_self _ _) hre
      simpa [mergeEntryStep, h1, h2, h3] using hst
    · by_cases h1 : hasId ll r.id = true
      · cases h2 : mapGet ll r.id with
        | none => simpa [mergeEntryStep, h1, h2] using hst
        | some lv =>
          by_cases h3 : getTimestamp r > getTimestamp lv
          · by_cases h4 : hasId st.1 r.id = true
            · simp only [mergeEntryStep, h1, h2, h3, h4, if_true, if_pos]
              exact mem_replaceFirstById_of_ne st.1 r e hst (fun hh => hre hh.symm)
            · simpa [mergeEntryStep, h1, h2, h3, h4] using hst
          · simpa [mergeEntryStep, h1, h2, h3] using hst
      · simp only [mergeEntryStep, h1]
        simp only [Bool.false_eq_true, if_false]
        exact List.mem_append_left _ hst

theorem mergeCollection_fst_filter_char (kind : String) (ll rl : List Entry)
    (st : List Entry × List String) (e r : Entry)
    (hu_l : uniqueIds ll) (hu_r : uniqueIds rl)
    (hel : e ∈ ll) (hrr : r ∈ rl) (hid : r.id = e.id)
    (hst : st.1.filter (fun x => x.id == e.id) = [e]) :
    (mergeCollection kind ll rl st).1.filter (fun x => x.id == e.id)
      = [if getTimestamp r > getTimestamp e then r else e] := by
  obtain ⟨as, bs, hsplit, has, hbs⟩ := uniq_split rl r hu_r hrr
  subst hsplit
  have hne_as : ∀ x ∈ as, (x.id == e.id) = false := by
    intro x hx
    have := has x hx
    rw [beq_eq_false_iff_ne] at this ⊢
    exact hid ▸ this
  have hne_bs : ∀ x ∈ bs, (x.id == e.id) = false := by
    intro x hx
    have := hbs x hx
    rw [beq_eq_false_iff_ne] at this ⊢
    exact hid ▸ this
  rw [mergeCollection_append, mergeCollection_cons]
  have h_as : (mergeCollection kind ll as st).1.filter
      (fun x => x.id == e.id) = [e] := by
    rw [mergeCollection_fst_filter_untouched kind ll as st e.id hne_as]
    exact hst
  have h1 : hasId ll r.id = true := hid ▸ hasId_of_mem ll e hel
  have h2 : mapGet ll r.id = some e := hid ▸ mapGet_eq_of_uniq ll e hu_l hel
  by_cases h3 : getTimestamp r > getTimestamp e
  · have h4 : hasId (mergeCollection kind ll as st).1 r.id = true :=
      hid ▸ hasId_of_filter_eq _ e _ h_as
    have hstep : mergeEntryStep kind ll (mergeCollection kind ll as st) r
        = (replaceFirstById (mergeCollection kind ll as st).1 r,
           (mergeCollection kind ll as st).2
             ++ ["Updated " ++ kind ++ ": " ++ r.name]) := by
      simp [mergeEntryStep, h1, h2, h3, h4]
    rw [hstep, if_pos h3]
    rw [mergeCollection_fst_filter_untouched kind ll bs _ e.id hne_bs]
    exact filter_replaceFirstById_eq _ r e hid h_as
  · have hstep : mergeEntryStep kind ll (mergeCollection kind ll as st) r
        = mergeCollection kind ll as st := by
      simp [mergeEntryStep, h1, h2, h3]
    rw [hstep, if_neg h3]
    rw [mergeCollection_fst_filter_untouched kind ll bs _ e.id hne_bs]
    exact h_as

/-! ## Lemmas about the append-only debt/credit loop -/

theorem mergeAppendStep_log (localL : List Entry)
    (st : List Entry × List String) (r : Entry) :
    mergeAppendStep localL st r
      = ((mergeAppendStep localL (st.1, []) r).1,
         st.2 ++ (mergeAppendStep localL (st.1, []) r).2) := by
  obtain ⟨acc, log⟩ := st
  by_cases h : hasId localL r.id = true
  · simp [mergeAppendStep, h]
  · simp [mergeAppendStep, h]

theorem mergeDebtCredit_log (localL remoteL : List Entry)
    (acc : List Entry) (log : List String) :
    mergeDebtCredit localL remoteL (acc, log)
      = ((mergeDebtCredit localL remoteL (acc, [])).1,
         log ++ (mergeDebtCredit localL remoteL (acc, [])).2) := by
  induction remoteL generalizing acc log with
  | nil => simp [mergeDebtCredit]
  | cons r rs ih =>
    simp only [mergeDebtCredit, List.foldl_cons] at *
    rw [mergeAppendStep_log localL (acc, log) r,
        mergeAppendStep_log localL (acc, []) r, List.nil_append]
    rw [ih, ih (mergeAppendStep localL (acc, []) r).1
            (mergeAppendStep localL (acc, []) r).2]
    simp [List.append_assoc]

theorem mergeDebtCredit_fst_spec (localL remoteL : List Entry)
    (st : List Entry × List String) :
    (mergeDebtCredit localL remoteL st).1
      = st.1 ++ remoteL.filter (fun r => !(hasId localL r.id)) := by
  induction remoteL generalizing st with
  | nil => simp [mergeDebtCredit]
  | cons r rs ih =>
    simp only [mergeDebtCredit, List.foldl_cons] at *
    by_cases h : hasId localL r.id = true
    · have hstep : mergeAppendStep localL st r = st := by simp [mergeAppendStep, h]
      rw [hstep, ih, List.filter_cons_of_neg (by simp [h])]
    · have hstep : mergeAppendStep localL st r
          = (st.1 ++ [r], st.2 ++ ["Added debt/credit transaction: " ++ r.name]) := by
        simp [mergeAppendStep, h]
      rw [hstep, ih, List.filter_cons_of_pos (by simp [h])]
      simp

/-! ## Section lemmas: the merged data of a block does not depend on
the incoming log, and each block only appends to the log -/

theorem mergeOptCollection_fst (kind : String) (lo ro : Option (List Entry))
    (log : List String) :
    (mergeOptCollection kind lo ro log).1 = (mergeOptCollection kind lo ro []).1 := by
  cases ro with
  | none => rfl
  | some rl =>
    simp only [mergeOptCollection]
    rw [mergeCollection_log]

theorem mergeOptCollection_snd (kind : String) (lo ro : Option (List Entry))
    (log : List String) :
    (mergeOptCollection kind lo ro log).2 = log ++ (mergeOptCollection kind lo ro []).2 := by
  cases ro with
  | none => simp [mergeOptCollection]
  | some rl =>
    simp only [mergeOptCollection]
    rw [mergeCollection_log]

theorem mergeOptCategories_fst (lo ro : Option (List Entry)) (log : List String) :
    (mergeOptCategories lo ro log).1 = (mergeOptCategories lo ro []).1 := by
  cases ro with
  | none => rfl
  | some rl =>
    simp only [mergeOptCategories]
    rw [mergeCollection_log]

theorem mergeOptCategories_snd (lo ro : Option (List Entry)) (log : List String) :
    (mergeOptCategories lo ro log).2 = log ++ (mergeOptCategories lo ro []).2 := by
  cases ro with
  | none => simp [mergeOptCategories]
  | some rl =>
    simp only [mergeOptCategories]
    rw [mergeCollection_log]

theorem mergeOptDebtCredit_fst (lo ro : Option (List Entry)) (log : List String) :
    (mergeOptDebtCredit lo ro log).1 = (mergeOptDebtCredit lo ro []).1 := by
  cases ro with
  | none => rfl
  | some rl =>
    simp only [mergeOptDebtCredit]
    rw [mergeDebtCredit_log]

theorem mergeOptDebtCredit_snd (lo ro : Option (List Entry)) (log : List String) :
    (mergeOptDebtCredit lo ro log).2 = log ++ (mergeOptDebtCredit lo ro []).2 := by
  cases ro with
  | none => simp [mergeOptDebtCredit]
  | some rl =>
    simp only [mergeOptDebtCredit]
    rw [mergeDebtCredit_log]

theorem mergeEmergencyFund_fst (lo ro : Option Nat) (log : List String) :
    (mergeEmergencyFund lo ro log).1 = (mergeEmergencyFund lo ro []).1 := by
  cases ro with
  | none => rfl
  | some rf =>
    simp only [mergeEmergencyFund]
    split
    · rfl
    · split
      · rfl
      · rfl

theorem mergeEmergencyFund_snd (lo ro : Option Nat) (log : List String) :
    (mergeEmergencyFund lo ro log).2 = log ++ (mergeEmergencyFund lo ro []).2 := by
  cases ro with
  | none => simp [mergeEmergencyFund]
  | some rf =>
    simp only [mergeEmergencyFund]
    split
    · simp
    · split
      · simp
      · simp

theorem mergeUserProfile_fst (lo ro : Option UserProfile) (log : List String) :
    (mergeUserProfile lo ro log).1 = (mergeUserProfile lo ro []).1 := by
  cases ro <;> rfl

theorem mergeUserProfile_snd (lo ro : Option UserProfile) (log : List String) :
    (mergeUserProfile lo ro log).2 = log ++ (mergeUserProfile lo ro []).2 := by
  cases ro <;> simp [mergeUserProfile]

/-! ## Field lemmas for `mergeWalletData` -/

theorem mergeWalletData_transactions (L R : Snapshot) :
    (mergeWalletData L R).merged.transactions
      = (mergeOptCollection "transaction" L.transactions R.transactions []).1 := rfl

theorem mergeWalletData_budgets (L R : Snapshot) :
    (mergeWalletData L R).merged.budgets
      = (mergeOptCollection "budget" L.budgets R.budgets []).1 := by
  simp only [mergeWalletData]
  rw [mergeOptCollection_fst]

theorem mergeWalletData_goals (L R : Snapshot) :
    (mergeWalletData L R).merged.goals
      = (mergeOptCollection "goal" L.goals R.goals []).1 := by
  simp only [mergeWalletData]
  rw [mergeOptCollection_fst]

theorem mergeWalletData_categories (L R : Snapshot) :
    (mergeWalletData L R).merged.categories
      = (mergeOptCategories L.categories R.categories []).1 := by
  simp only [mergeWalletData]
  rw [mergeOptCategories_fst]

theorem mergeWalletData_debtAccounts (L R : Snapshot) :
    (mergeWalletData L R).merged.debtAccounts
      = (mergeOptCollection "debt account" L.debtAccounts R.debtAccounts []).1 := by
  simp only [mergeWalletData]
  rw [mergeOptCollection_fst]

theorem mergeWalletData_creditAccounts (L R : Snapshot) :
    (mergeWalletData L R).merged.creditAccounts
      = (mergeOptCollection "credit account" L.creditAccounts R.creditAccounts []).1 := by
  simp only [mergeWalletData]
  rw [mergeOptCollection_fst]

theorem mergeWalletData_debtCreditTransactions (L R : Snapshot) :
    (mergeWalletData L R).merged.debtCreditTransactions
      = (mergeOptDebtCredit L.debtCreditTransactions R.debtCreditTransactions []).1 := by
  simp only [mergeWalletData]
  rw [mergeOptDebtCredit_fst]

theorem mergeWalletData_emergencyFund (L R : Snapshot) :
    (mergeWalletData L R).merged.emergencyFund
      = (mergeEmergencyFund L.emergencyFund R.emergencyFund []).1 := by
  simp only [mergeWalletData]
  rw [mergeEmergencyFund_fst]

theorem mergeWalletData_userProfile (L R : Snapshot) :
    (mergeWalletData L R).merged.userProfile
      = (mergeUserProfile L.userProfile R.userProfile []).1 := by
  simp only [mergeWalletData]
  rw [mergeUserProfile_fst]

theorem mergeWalletData_exportedAt (L R : Snapshot) :
    (mergeWalletData L R).merged.exportedAt = L.exportedAt := rfl

theorem mergeWalletData_log_ef (L R : Snapshot) :
    ∃ pre post, (mergeWalletData L R).mergeLog
      = pre ++ (mergeEmergencyFund L.emergencyFund R.emergencyFund []).2 ++ post := by
  simp only [mergeWalletData]
  rw [mergeUserProfile_snd, mergeEmergencyFund_snd]
  exact ⟨_, _, by rw [List.append_assoc]⟩

/-! ## Append-safety helpers -/

theorem idPresent_mergeOptCollection_local (kind : String) (lo ro : Option (List Entry))
    (i : String) (h : idPresent lo i = true) :
    idPresent (mergeOptCollection kind lo ro []).1 i = true := by
  cases ro with
  | none => exact h
  | some rl =>
    simp only [mergeOptCollection, idPresent, Option.getD_some]
    exact mergeCollection_fst_hasId kind _ rl _ i (fun h2 => h2) (Or.inl h)

theorem idPresent_mergeOptCollection_remote (kind : String) (lo ro : Option (List Entry))
    (i : String) (h : idPresent ro i = true) :
    idPresent (mergeOptCollection kind lo ro []).1 i = true := by
  cases ro with
  | none => simp [idPresent, hasId] at h
  | some rl =>
    simp only [mergeOptCollection, idPresent, Option.getD_some]
    exact mergeCollection_fst_hasId kind _ rl _ i (fun h2 => h2)
      (Or.inr (by simpa [idPresent, hasId] using h))

theorem idPresent_mergeOptDebtCredit_local (lo ro : Option (List Entry))
    (i : String) (h : idPresent lo i = true) :
    idPresent (mergeOptDebtCredit lo ro []).1 i = true := by
  cases ro with
  | none => exact h
  | some rl =>
    simp only [mergeOptDebtCredit, idPresent, Option.getD_some]
    rw [mergeDebtCredit_fst_spec, hasId_append]
    simp only [idPresent] at h
    simp [h]

theorem idPresent_mergeOptDebtCredit_remote (lo ro : Option (List Entry))
    (i : String) (h : idPresent ro i = true) :
    idPresent (mergeOptDebtCredit lo ro []).1 i = true := by
  cases ro with
  | none => simp [idPresent, hasId] at h
  | some rl =>
    simp only [mergeOptDebtCredit, idPresent, Option.getD_some]
    rw [mergeDebtCredit_fst_spec, hasId_append]
    by_cases hl : hasId (lo.getD []) i = true
    · simp [hl]
    · simp only [idPresent, Option.getD_some, hasId, List.any_eq_true] at h
      obtain ⟨e, he, hbeq⟩ := h
      have hei : e.id = i := eq_of_beq hbeq
      have : e ∈ rl.filter (fun r => !(hasId (lo.getD []) r.id)) :=
        List.mem_filter.2 ⟨he, by simp [hei, hl]⟩
      have : hasId (rl.filter (fun r => !(hasId (lo.getD []) r.id))) i = true := by
        simp only [hasId, List.any_eq_true]
        exact ⟨e, this, hbeq⟩
      simp [this]

theorem idPresent_mergeOptCategories_local (lo ro : Option (List Entry))
    (i : String) (h : idPresent lo i = true) :
    idPresent (mergeOptCategories lo ro []).1 i = true := by
  cases ro with
  | none => exact h
  | some rl =>
    simp only [mergeOptCategories, idPresent, Option.getD_some]
    rw [hasId_append]
    simp only [idPresent, hasId, List.any_eq_true] at h
    obtain ⟨e, he, hbeq⟩ := h
    rcases hd : e.isDefault with _ | _
    · have hu : e ∈ (lo.getD []).filter (fun c => !c.isDefault) :=
        List.mem_filter.2 ⟨he, by simp [hd]⟩
      have huser : hasId ((lo.getD []).filter (fun c => !c.isDefault)) i = true := by
        simp only [hasId, List.any_eq_true]
        exact ⟨e, hu, hbeq⟩
      have : hasId (mergeCollection "user category"
          ((lo.getD []).filter (fun c => !c.isDefault))
          (rl.filter (fun c => !c.isDefault))
          ((lo.getD []).filter (fun c => !c.isDefault), [])).1 i = true :=
        mergeCollection_fst_hasId _ _ _ _ i (fun h2 => h2) (Or.inl huser)
      simp [this]
    · have hdef : e ∈ (lo.getD []).filter (fun c => c.isDefault) :=
        List.mem_filter.2 ⟨he, by simp [hd]⟩
      have : hasId ((lo.getD []).filter (fun c => c.isDefault)) i = true := by
        simp only [hasId, List.any_eq_true]
        exact ⟨e, hdef, hbeq⟩
      simp [this]

theorem idPresent_mergeOptCategories_remote (lo ro : Option (List Entry))
    (e : Entry) (he : e ∈ ro.getD []) (hd : e.isDefault = false) :
    idPresent (mergeOptCategories lo ro []).1 e.id = true := by
  cases ro with
  | none => cases he
  | some rl =>
    simp only [Option.getD_some] at he
    simp only [mergeOptCategories, idPresent, Option.getD_some]
    rw [hasId_append]
    have hu : e ∈ rl.filter (fun c => !c.isDefault) :=
      List.mem_filter.2 ⟨he, by simp [hd]⟩
    have : hasId (mergeCollection "user category"
        ((lo.getD []).filter (fun c => !c.isDefault))
        (rl.filter (fun c => !c.isDefault))
        ((lo.getD []).filter (fun c => !c.isDefault), [])).1 e.id = true := by
      refine mergeCollection_fst_hasId _ _ _ _ e.id (fun h2 => h2) (Or.inr ?_)
      simp only [List.any_eq_true]
      exact ⟨e, hu, by simp⟩
    simp [this]

/-- C1: every entity whose id occurs in the local or the remote snapshot
occurs in the merged snapshot, with the sole exception of remote default
categories, which may be discarded. -/
theorem c1_append_safety (L R : Snapshot) :
    (∀ i, idPresent L.transactions i = true →
        idPresent (mergeWalletData L R).merged.transactions i = true)
  ∧ (∀ i, idPresent R.transactions i = true →
        idPresent (mergeWalletData L R).merged.transactions i = true)
  ∧ (∀ i, idPresent L.budgets i = true →
        idPresent (mergeWalletData L R).merged.budgets i = true)
  ∧ (∀ i, idPresent R.budgets i = true →
        idPresent (mergeWalletData L R).merged.budgets i = true)
  ∧ (∀ i, idPresent L.goals i = true →
        idPresent (mergeWalletData L R).merged.goals i = true)
  ∧ (∀ i, idPresent R.goals i = true →
        idPresent (mergeWalletData L R).merged.goals i = true)
  ∧ (∀ i, idPresent L.debtAccounts i = true →
        idPresent (mergeWalletData L R).merged.debtAccounts i = true)
  ∧ (∀ i, idPresent R.debtAccounts i = true →
        idPresent (mergeWalletData L R).merged.debtAccounts i = true)
  ∧ (∀ i, idPresent L.creditAccounts i = true →
        idPresent (mergeWalletData L R).merged.creditAccounts i = true)
  ∧ (∀ i, idPresent R.creditAccounts i = true →
        idPresent (mergeWalletData L R).merged.creditAccounts i = true)
  ∧ (∀ i, idPresent L.debtCreditTransactions i = true →
        idPresent (mergeWalletData L R).merged.debtCreditTransactions i = true)
  ∧ (∀ i, idPresent R.debtCreditTransactions i = true →
        idPresent (mergeWalletData L R).merged.debtCreditTransactions i = true)
  ∧ (∀ i, idPresent L.categories i = true →
        idPresent (mergeWalletData L R).merged.categories i = true)
  ∧ (∀ e, e ∈ R.categories.getD [] → e.isDefault = false →
        idPresent (mergeWalletData L R).merged.categories e.id = true) := by
  refine ⟨?_, ?_, ?_, ?_, ?_, ?_, ?_, ?_, ?_, ?_, ?_, ?_, ?_, ?_⟩
  · intro i h
    rw [mergeWalletData_transactions]
    exact idPresent_mergeOptCollection_local _ _ _ i h
  · intro i h
    rw [mergeWalletData_transactions]
    exact idPresent_mergeOptCollection_remote _ _ _ i h
  · intro i h
    rw [mergeWalletData_budgets]
    exact idPresent_mergeOptCollection_local _ _ _ i h
  · intro i h
    rw [mergeWalletData_budgets]
    exact idPresent_mergeOptCollection_remote _ _ _ i h
  · intro i h
    rw [mergeWalletData_goals]
    exact idPresent_mergeOptCollection_local _ _ _ i h
  · intro i h
    rw [mergeWalletData_goals]
    exact idPresent_mergeOptCollection_remote _ _ _ i h
  · intro i h
    rw [mergeWalletData_debtAccounts]
    exact idPresent_mergeOptCollection_local _ _ _ i h
  · intro i h
    rw [mergeWalletData_debtAccounts]
    exact idPresent_mergeOptCollection_remote _ _ _ i h
  · intro i h
    rw [mergeWalletData_creditAccounts]
    exact idPresent_mergeOptCollection_local _ _ _ i h
  · intro i h
    rw [mergeWalletData_creditAccounts]
    exact idPresent_mergeOptCollection_remote _ _ _ i h
  · intro i h
    rw [mergeWalletData_debtCreditTransactions]
    exact idPresent_mergeOptDebtCredit_local _ _ i h
  · intro i h
    rw [mergeWalletData_debtCreditTransactions]
    exact idPresent_mergeOptDebtCredit_remote _ _ i h
  · intro i h
    rw [mergeWalletData_categories]
    exact idPresent_mergeOptCategories_local _ _ i h
  · intro e he hd
    rw [mergeWalletData_categories]
    exact idPresent_mergeOptCategories_remote _ _ e he hd

/-- A snapshot with every remote-mergeable field absent, used to build
concrete examples. -/
def emptySnapshot : Snapshot :=
  { userProfile := none, transactions := none, budgets := none, goals := none,
    debtAccounts := none, creditAccounts := none, debtCreditTransactions := none,
    categories := none, emergencyFund := none, exportedAt := 0 }

def c1LocalTx : Entry :=
  { id := "t1", name := "coffee", lastModified := some 5, timeEquivalent := none,
    createdAt := none, isDefault := false }

def c1RemoteTx : Entry :=
  { id := "t2", name := "rent", lastModified := some 7, timeEquivalent := none,
    createdAt := none, isDefault := false }

def c1Local : Snapshot := { emptySnapshot with transactions := some [c1LocalTx] }

def c1Remote : Snapshot := { emptySnapshot with transactions := some [c1RemoteTx] }

theorem c1_append_safety_witness :
    idPresent (mergeWalletData c1Local c1Remote).merged.transactions "t1" = true
  ∧ idPresent (mergeWalletData c1Local c1Remote).merged.transactions "t2" = true :=
  ⟨(c1_append_safety c1Local c1Remote).1 "t1" (by decide),
   (c1_append_safety c1Local c1Remote).2.1 "t2" (by decide)⟩

/-! ## Idempotence -/

theorem jsOr_some_zero (n : Nat) : jsOr (some n) 0 = n := by
  by_cases h : n = 0
  · simp [jsOr, h]
  · simp [jsOr, h]

theorem snapshot_eq_of_fields (A B : Snapshot)
    (h1 : A.userProfile = B.userProfile)
    (h2 : A.transactions = B.transactions)
    (h3 : A.budgets = B.budgets)
    (h4 : A.goals = B.goals)
    (h5 : A.debtAccounts = B.debtAccounts)
    (h6 : A.creditAccounts = B.creditAccounts)
    (h7 : A.debtCreditTransactions = B.debtCreditTransactions)
    (h8 : A.categories = B.categories)
    (h9 : A.emergencyFund = B.emergencyFund)
    (h10 : A.exportedAt = B.exportedAt) : A = B := by
  cases A; cases B; simp_all

def c2UserCat : Entry :=
  { id := "u1", name := "Groceries", lastModified := none, timeEquivalent := none,
    createdAt := some 1, isDefault := false }

def c2DefaultCat : Entry :=
  { id := "d1", name := "Default", lastModified := none, timeEquivalent := none,
    createdAt := some 1, isDefault := true }

def c2Snap : Snapshot := { emptySnapshot with categories := some [c2UserCat, c2DefaultCat] }

/-- C2 counterexample: merging the snapshot whose categories list is
`[user, default]` with itself reorders the categories to
`[default, user]`, so `merge(S, S).merged ≠ S` as stated. -/
theorem c2_idempotence_counterexample :
    (mergeWalletData c2Snap c2Snap).merged ≠ c2Snap
      ∧ (mergeWalletData c2Snap c2Snap).merged.categories
          = some [c2DefaultCat, c2UserCat] := by
  constructor
  · decide
  · decide

/-- C2 amended: for snapshots whose collections have unique ids, whose
categories list all default categories before the user-created ones,
and whose user profile (when present) carries a `lastModified` field,
`mergeWalletData S S` returns `S` unchanged. -/
theorem c2_idempotence_amended (S : Snapshot)
    (hTx : uniqueIds (S.transactions.getD []))
    (hBd : uniqueIds (S.budgets.getD []))
    (hGl : uniqueIds (S.goals.getD []))
    (hDa : uniqueIds (S.debtAccounts.getD []))
    (hCa : uniqueIds (S.creditAccounts.getD []))
    (hCat : uniqueIds (S.categories.getD []))
    (hOrder : S.categories.getD []
        = (S.categories.getD []).filter (fun c => c.isDefault)
          ++ (S.categories.getD []).filter (fun c => !c.isDefault))
    (hProf : ∀ p, S.userProfile = some p → p.lastModified.isSome = true) :
    (mergeWalletData S S).merged = S := by
  have hTx2 : (mergeWalletData S S).merged.transactions = S.transactions := by
    rw [mergeWalletData_transactions]
    cases htx : S.transactions with
    | none => rfl
    | some l =>
      rw [htx] at hTx
      simp only [Option.getD_some] at hTx
      simp only [mergeOptCollection, Option.getD_some]
      rw [mergeCollection_self "transaction" l l (l, []) hTx (fun r hr => hr)]
  have hBd2 : (mergeWalletData S S).merged.budgets = S.budgets := by
    rw [mergeWalletData_budgets]
    cases hb : S.budgets with
    | none => rfl
    | some l =>
      rw [hb] at hBd
      simp only [Option.getD_some] at hBd
      simp only [mergeOptCollection, Option.getD_some]
      rw [mergeCollection_self "budget" l l (l, []) hBd (fun r hr => hr)]
  have hGl2 : (mergeWalletData S S).merged.goals = S.goals := by
    rw [mergeWalletData_goals]
    cases hg : S.goals with
    | none => rfl
    | some l =>
      rw [hg] at hGl
      simp only [Option.getD_some] at hGl
      simp only [mergeOptCollection, Option.getD_some]
      rw [mergeCollection_self "goal" l l (l, []) hGl (fun r hr => hr)]
  have hDa2 : (mergeWalletData S S).merged.debtAccounts = S.debtAccounts := by
    rw [mergeWalletData_debtAccounts]
    cases hd : S.debtAccounts with
    | none => rfl
    | some l =>
      rw [hd] at hDa
      simp only [Option.getD_some] at hDa
      simp only [mergeOptCollection, Option.getD_some]
      rw [mergeCollection_self "debt account" l l (l, []) hDa (fun r hr => hr)]
  have hCa2 : (mergeWalletData S S).merged.creditAccounts = S.creditAccounts := by
    rw [mergeWalletData_creditAccounts]
    cases hc : S.creditAccounts with
    | none => rfl
    | some l =>
      rw [hc] at hCa
      simp only [Option.getD_some] at hCa
      simp only [mergeOptCollection, Option.getD_some]
      rw [mergeCollection_self "credit account" l l (l, []) hCa (fun r hr => hr)]
  have hD2 : (mergeWalletData S S).merged.debtCreditTransactions
      = S.debtCreditTransactions := by
    rw [mergeWalletData_debtCreditTransactions]
    cases hd : S.debtCreditTransactions with
    | none => rfl
    | some l =>
      simp only [mergeOptDebtCredit, Option.getD_some]
      rw [mergeDebtCredit_fst_spec]
      have hnil : l.filter (fun r => !(hasId l r.id)) = [] :=
        List.filter_eq_nil_iff.2 (fun r hr => by simp [hasId_of_mem l r hr])
      rw [hnil, List.append_nil]
  have hCat2 : (mergeWalletData S S).merged.categories = S.categories := by
    rw [mergeWalletData_categories]
    cases hc : S.categories with
    | none => rfl
    | some c =>
      rw [hc] at hCat hOrder
      simp only [Option.getD_some] at hCat hOrder
      simp only [mergeOptCategories, Option.getD_some]
      have hu2 : uniqueIds (c.filter (fun x => !x.isDefault)) :=
        uniqueIds_filter c _ hCat
      rw [mergeCollection_self "user category" _ _ _ hu2 (fun r hr => hr)]
      rw [← hOrder]
  have hE2 : (mergeWalletData S S).merged.emergencyFund = S.emergencyFund := by
    rw [mergeWalletData_emergencyFund]
    cases he : S.emergencyFund with
    | none => rfl
    | some v =>
      simp [mergeEmergencyFund, jsOr_some_zero]
  have hP2 : (mergeWalletData S S).merged.userProfile = S.userProfile := by
    rw [mergeWalletData_userProfile]
    cases hp : S.userProfile with
    | none => rfl
    | some p =>
      obtain ⟨m, hm⟩ := Option.isSome_iff_exists.1 (hProf p hp)
      simp only [mergeUserProfile, Option.some_bind, Option.or_self]
      rw [hm, jsOr_some_zero, max_self, ← hm]
  exact snapshot_eq_of_fields _ _ hP2 hTx2 hBd2 hGl2 hDa2 hCa2 hD2 hCat2 hE2
    (mergeWalletData_exportedAt S S)

def c2GoodProfile : UserProfile :=
  { name := some "Sam", currency := some "USD", lastModified := some 10 }

def c2GoodSnap : Snapshot :=
  { userProfile := some c2GoodProfile
    transactions := some [c1LocalTx]
    budgets := none
    goals := none
    debtAccounts := none
    creditAccounts := none
    debtCreditTransactions := some [c1RemoteTx]
    categories := some [c2DefaultCat, c2UserCat]
    emergencyFund := some 500
    exportedAt := 3 }

theorem c2_idempotence_amended_witness :
    (mergeWalletData c2GoodSnap c2GoodSnap).merged = c2GoodSnap :=
  c2_idempotence_amended c2GoodSnap (by decide) (by decide) (by decide) (by decide)
    (by decide) (by decide) (by decide)
    (by
      intro p hp
      injection hp with h
      subst h
      decide)

/-! ## Tie-break characterization -/

theorem mergeOptCollection_filter_char (kind : String) (lo ro : Option (List Entry))
    (ll rl : List Entry) (e r : Entry)
    (hlo : lo = some ll) (hro : ro = some rl)
    (hul : uniqueIds ll) (hur : uniqueIds rl)
    (hel : e ∈ ll) (hrr : r ∈ rl) (hid : r.id = e.id) :
    ((mergeOptCollection kind lo ro []).1.getD []).filter (fun x => x.id == e.id)
      = [if getTimestamp r > getTimestamp e then r else e] := by
  subst hlo
  subst hro
  simp only [mergeOptCollection, Option.getD_some]
  exact mergeCollection_fst_filter_char kind ll rl (ll, []) e r hul hur hel hrr hid
    (uniq_filter_self ll e hul hel)

theorem mergeOptCategories_filter_char (lo ro : Option (List Entry))
    (ll rl : List Entry) (e r : Entry)
    (hlo : lo = some ll) (hro : ro = some rl)
    (hul : uniqueIds ll) (hur : uniqueIds rl)
    (hel : e ∈ ll) (hrr : r ∈ rl) (hid : r.id = e.id)
    (hed : e.isDefault = false) (hrd : r.isDefault = false) :
    ((mergeOptCategories lo ro []).1.getD []).filter (fun x => x.id == e.id)
      = [if getTimestamp r > getTimestamp e then r else e] := by
  subst hlo
  subst hro
  simp only [mergeOptCategories, Option.getD_some]
  rw [List.filter_append]
  have hdef : (ll.filter (fun c => c.isDefault)).filter (fun x => x.id == e.id) = [] := by
    rw [List.filter_eq_nil_iff]
    intro x hx hbeq
    have hx2 := List.mem_filter.1 hx
    have hxe : x = e := uniq_mem_id_eq ll e x hul hel hx2.1 (eq_of_beq hbeq)
    rw [hxe, hed] at hx2
    exact absurd hx2.2 (by simp)
  rw [hdef, List.nil_append]
  have hul2 : uniqueIds (ll.filter (fun c => !c.isDefault)) := uniqueIds_filter ll _ hul
  have hur2 : uniqueIds (rl.filter (fun c => !c.isDefault)) := uniqueIds_filter rl _ hur
  have hel2 : e ∈ ll.filter (fun c => !c.isDefault) :=
    List.mem_filter.2 ⟨hel, by simp [hed]⟩
  have hrr2 : r ∈ rl.filter (fun c => !c.isDefault) :=
    List.mem_filter.2 ⟨hrr, by simp [hrd]⟩
  exact mergeCollection_fst_filter_char "user category" _ _ _ e r hul2 hur2 hel2 hrr2 hid
    (uniq_filter_self _ e hul2 hel2)

def c3LocalTx : Entry :=
  { id := "a", name := "local", lastModified := some 0, timeEquivalent := none,
    createdAt := some 5, isDefault := false }

def c3RemoteTx : Entry :=
  { id := "a", name := "remote", lastModified := some 3, timeEquivalent := none,
    createdAt := none, isDefault := false }

def c3Local : Snapshot := { emptySnapshot with transactions := some [c3LocalTx] }

def c3Remote : Snapshot := { emptySnapshot with transactions := some [c3RemoteTx] }

/-- C3 counterexample: under the claim's presence-based fallback the
remote effective timestamp (3) strictly exceeds the local one
(`lastModified` is present with value 0), so the claim requires the
remote entry to be kept; the code's JS `||` fallback skips the falsy
`lastModified: 0` and reads `createdAt: 5`, so the merge keeps the
local entry instead. -/
theorem c3_tiebreak_counterexample :
    specEffectiveTimestamp c3RemoteTx > specEffectiveTimestamp c3LocalTx
  ∧ (mergeWalletData c3Local c3Remote).merged.transactions = some [c3LocalTx]
  ∧ c3LocalTx ≠ c3RemoteTx := by
  refine ⟨by decide, by decide, by decide⟩

/-- C3 amended: for entries with unique ids within each side, an id
present on both sides resolves to the remote entry exactly when its
effective timestamp is strictly greater than the local entry's, and to
the local entry otherwise — where the effective timestamp
(`getTimestamp`) falls back `lastModified` → `timeEquivalent` →
`createdAt` → 0 skipping absent *and zero-valued* fields (JS `||`
truthiness), not merely absent ones. -/
theorem c3_tiebreak_amended (L R : Snapshot) :
    (∀ ll rl e r, L.transactions = some ll → R.transactions = some rl →
      uniqueIds ll → uniqueIds rl → e ∈ ll → r ∈ rl → r.id = e.id →
      ((mergeWalletData L R).merged.transactions.getD []).filter (fun x => x.id == e.id)
        = [if getTimestamp r > getTimestamp e then r else e])
  ∧ (∀ ll rl e r, L.budgets = some ll → R.budgets = some rl →
      uniqueIds ll → uniqueIds rl → e ∈ ll → r ∈ rl → r.id = e.id →
      ((mergeWalletData L R).merged.budgets.getD []).filter (fun x => x.id == e.id)
        = [if getTimestamp r > getTimestamp e then r else e])
  ∧ (∀ ll rl e r, L.goals = some ll → R.goals = some rl →
      uniqueIds ll → uniqueIds rl → e ∈ ll → r ∈ rl → r.id = e.id →
      ((mergeWalletData L R).merged.goals.getD []).filter (fun x => x.id == e.id)
        = [if getTimestamp r > getTimestamp e then r else e])
  ∧ (∀ ll rl e r, L.debtAccounts = some ll → R.debtAccounts = some rl →
      uniqueIds ll → uniqueIds rl → e ∈ ll → r ∈ rl → r.id = e.id →
      ((mergeWalletData L R).merged.debtAccounts.getD []).filter (fun x => x.id == e.id)
        = [if getTimestamp r > getTimestamp e then r else e])
  ∧ (∀ ll rl e r, L.creditAccounts = some ll → R.creditAccounts = some rl →
      uniqueIds ll → uniqueIds rl → e ∈ ll → r ∈ rl → r.id = e.id →
      ((mergeWalletData L R).merged.creditAccounts.getD []).filter (fun x => x.id == e.id)
        = [if getTimestamp r > getTimestamp e then r else e])
  ∧ (∀ ll rl e r, L.categories = some ll → R.categories = some rl →
      uniqueIds ll → uniqueIds rl → e ∈ ll → r ∈ rl → r.id = e.id →
      e.isDefault = false → r.isDefault = false →
      ((mergeWalletData L R).merged.categories.getD []).filter (fun x => x.id == e.id)
        = [if getTimestamp r > getTimestamp e then r else e]) := by
  refine ⟨?_, ?_, ?_, ?_, ?_, ?_⟩
  · intro ll rl e r hlo hro hul hur hel hrr hid
    rw [mergeWalletData_transactions]
    exact mergeOptCollection_filter_char _ _ _ ll rl e r hlo hro hul hur hel hrr hid
  · intro ll rl e r hlo hro hul hur hel hrr hid
    rw [mergeWalletData_budgets]
    exact mergeOptCollection_filter_char _ _ _ ll rl e r hlo hro hul hur hel hrr hid
  · intro ll rl e r hlo hro hul hur hel hrr hid
    rw [mergeWalletData_goals]
    exact mergeOptCollection_filter_char _ _ _ ll rl e r hlo hro hul hur hel hrr hid
  · intro ll rl e r hlo hro hul hur hel hrr hid
    rw [mergeWalletData_debtAccounts]
    exact mergeOptCollection_filter_char _ _ _ ll rl e r hlo hro hul hur hel hrr hid
  · intro ll rl e r hlo hro hul hur hel hrr hid
    rw [mergeWalletData_creditAccounts]
    exact mergeOptCollection_filter_char _ _ _ ll rl e r hlo hro hul hur hel hrr hid
  · intro ll rl e r hlo hro hul hur hel hrr hid hed hrd
    rw [mergeWalletData_categories]
    exact mergeOptCategories_filter_char _ _ ll rl e r hlo hro hul hur hel hrr hid hed hrd

def c3wLocalTx : Entry :=
  { id := "b", name := "older", lastModified := some 1, timeEquivalent := none,
    createdAt := none, isDefault := false }

def c3wRemoteTx : Entry :=
  { id := "b", name := "newer", lastModified := some 9, timeEquivalent := none,
    createdAt := none, isDefault := false }

def c3wLocal : Snapshot := { emptySnapshot with transactions := some [c3wLocalTx] }

def c3wRemote : Snapshot := { emptySnapshot with transactions := some [c3wRemoteTx] }

theorem c3_tiebreak_amended_witness :
    ((mergeWalletData c3wLocal c3wRemote).merged.transactions.getD []).filter
        (fun x => x.id == c3wLocalTx.id) = [c3wRemoteTx] := by
  have h := (c3_tiebreak_amended c3wLocal c3wRemote).1 [c3wLocalTx] [c3wRemoteTx]
    c3wLocalTx c3wRemoteTx rfl rfl (by decide) (by decide) (by decide) (by decide) (by decide)
  have h2 : (if getTimestamp c3wRemoteTx > getTimestamp c3wLocalTx
      then c3wRemoteTx else c3wLocalTx) = c3wRemoteTx := by decide
  rw [h, h2]

/-! ## Emergency fund -/

theorem mergeEmergencyFund_gt (lf rf : Nat) (h : rf > lf) :
    mergeEmergencyFund (some lf) (some rf) []
      = (some rf, ["Updated emergency fund: $" ++ toString rf
          ++ " (was $" ++ toString lf ++ ")"]) := by
  simp [mergeEmergencyFund, jsOr_some_zero, h]

theorem mergeEmergencyFund_lt (lf rf : Nat) (h : rf < lf) :
    mergeEmergencyFund (some lf) (some rf) []
      = (some lf, ["Kept local emergency fund: $" ++ toString lf
          ++ " (remote had $" ++ toString rf ++ ")"]) := by
  simp only [mergeEmergencyFund, jsOr_some_zero]
  rw [if_neg (Nat.lt_asymm h), if_pos h]
  simp

theorem mergeEmergencyFund_same (lf : Nat) :
    mergeEmergencyFund (some lf) (some lf) [] = (some lf, []) := by
  simp [mergeEmergencyFund, jsOr_some_zero]

def c4EqSnap : Snapshot := { emptySnapshot with emergencyFund := some 5 }

/-- C4 counterexample: when the two emergency fund values are equal
(both 5), the merged value is indeed the maximum, but the merge log
records nothing at all about which side was kept. -/
theorem c4_emergency_fund_counterexample :
    (mergeWalletData c4EqSnap c4EqSnap).merged.emergencyFund = some 5
  ∧ (mergeWalletData c4EqSnap c4EqSnap).mergeLog = [] :=
  ⟨by decide, by decide⟩

/-- C4 amended: when both emergency fund values are defined, the merged
value is their maximum, and the merge log records which side won
whenever the two values differ (nothing is logged when they are
equal). -/
theorem c4_emergency_fund_amended (L R : Snapshot) (lf rf : Nat)
    (hl : L.emergencyFund = some lf) (hr : R.emergencyFund = some rf) :
    (mergeWalletData L R).merged.emergencyFund = some (max lf rf)
  ∧ (rf > lf →
      ("Updated emergency fund: $" ++ toString rf ++ " (was $" ++ toString lf ++ ")")
        ∈ (mergeWalletData L R).mergeLog)
  ∧ (rf < lf →
      ("Kept local emergency fund: $" ++ toString lf ++ " (remote had $" ++ toString rf ++ ")")
        ∈ (mergeWalletData L R).mergeLog) := by
  refine ⟨?_, ?_, ?_⟩
  · rw [mergeWalletData_emergencyFund, hl, hr]
    rcases Nat.lt_trichotomy lf rf with h | h | h
    · rw [mergeEmergencyFund_gt lf rf h]
      rw [max_eq_right (Nat.le_of_lt h)]
    · subst h
      rw [mergeEmergencyFund_same lf, max_self]
    · rw [mergeEmergencyFund_lt lf rf h]
      rw [max_eq_left (Nat.le_of_lt h)]
  · intro h
    obtain ⟨pre, post, hlog⟩ := mergeWalletData_log_ef L R
    rw [hlog, hl, hr, mergeEmergencyFund_gt lf rf h]
    simp [List.mem_append]
  · intro h
    obtain ⟨pre, post, hlog⟩ := mergeWalletData_log_ef L R
    rw [hlog, hl, hr, mergeEmergencyFund_lt lf rf h]
    simp [List.mem_append]

def c4Local : Snapshot := { emptySnapshot with emergencyFund := some 500 }

def c4Remote : Snapshot := { emptySnapshot with emergencyFund := some 300 }

theorem c4_emergency_fund_amended_witness :
    (mergeWalletData c4Local c4Remote).merged.emergencyFund = some 500
  ∧ ("Kept local emergency fund: $" ++ toString 500 ++ " (remote had $"
      ++ toString 300 ++ ")") ∈ (mergeWalletData c4Local c4Remote).mergeLog := by
  have h := c4_emergency_fund_amended c4Local c4Remote 500 300 rfl rfl
  exact ⟨(by decide : max 500 300 = 500) ▸ h.1, h.2.2 (by decide)⟩

/-! ## Append-only debt/credit transactions -/

/-- C5: the debt/credit-transaction collection is merged append-only:
the local list is kept as an unchanged prefix, every remote entry whose
id is absent locally is appended, every id present locally resolves to
exactly the unmodified local entries regardless of timestamps, and no
entry comes from anywhere else. -/
theorem c5_debt_credit_append_only (L R : Snapshot) (ll rl : List Entry)
    (hl : L.debtCreditTransactions = some ll)
    (hr : R.debtCreditTransactions = some rl) :
    ∃ ml, (mergeWalletData L R).merged.debtCreditTransactions = some ml
      ∧ (∃ t, ml = ll ++ t)
      ∧ (∀ r2 ∈ rl, hasId ll r2.id = false → r2 ∈ ml)
      ∧ (∀ i, hasId ll i = true →
          ml.filter (fun x => x.id == i) = ll.filter (fun x => x.id == i))
      ∧ (∀ x ∈ ml, x ∈ ll ∨ x ∈ rl) := by
  refine ⟨ll ++ rl.filter (fun r => !(hasId ll r.id)), ?_, ⟨_, rfl⟩, ?_, ?_, ?_⟩
  · rw [mergeWalletData_debtCreditTransactions, hl, hr]
    simp only [mergeOptDebtCredit, Option.getD_some]
    rw [mergeDebtCredit_fst_spec]
  · intro r2 hr2 habs
    exact List.mem_append_right _ (List.mem_filter.2 ⟨hr2, by simp [habs]⟩)
  · intro i hi
    rw [List.filter_append]
    have hnil : (rl.filter (fun r => !(hasId ll r.id))).filter
        (fun x => x.id == i) = [] := by
      rw [List.filter_eq_nil_iff]
      intro x hx hbeq
      have hx2 := List.mem_filter.1 hx
      have hxi : x.id = i := eq_of_beq hbeq
      rw [hxi, hi] at hx2
      exact absurd hx2.2 (by simp)
    rw [hnil, List.append_nil]
  · intro x hx
    rcases List.mem_append.1 hx with h | h
    · exact Or.inl h
    · exact Or.inr (List.mem_filter.1 h).1

def c5LocalE : Entry :=
  { id := "d1", name := "loan-local", lastModified := some 1, timeEquivalent := none,
    createdAt := none, isDefault := false }

def c5RemoteE : Entry :=
  { id := "d1", name := "loan-remote", lastModified := some 99, timeEquivalent := none,
    createdAt := none, isDefault := false }

def c5RemoteNew : Entry :=
  { id := "d2", name := "payment", lastModified := some 2, timeEquivalent := none,
    createdAt := none, isDefault := false }

def c5Local : Snapshot := { emptySnapshot with debtCreditTransactions := some [c5LocalE] }

def c5Remote : Snapshot :=
  { emptySnapshot with debtCreditTransactions := some [c5RemoteE, c5RemoteNew] }

theorem c5_debt_credit_append_only_witness :
    ∃ ml, (mergeWalletData c5Local c5Remote).merged.debtCreditTransactions = some ml
      ∧ (∃ t, ml = [c5LocalE] ++ t)
      ∧ (∀ r2 ∈ [c5RemoteE, c5RemoteNew], hasId [c5LocalE] r2.id = false → r2 ∈ ml)
      ∧ (∀ i, hasId [c5LocalE] i = true →
          ml.filter (fun x => x.id == i) = [c5LocalE].filter (fun x => x.id == i))
      ∧ (∀ x ∈ ml, x ∈ [c5LocalE] ∨ x ∈ [c5RemoteE, c5RemoteNew]) :=
  c5_debt_credit_append_only c5Local c5Remote [c5LocalE] [c5RemoteE, c5RemoteNew] rfl rfl

/-! ## Smart-sync cycle ordering -/

/-- C6: the automatic cycle uploads first; a failed upload performs no
download; a download happens only when a remote record exists whose
timestamp strictly exceeds the stored last-sync time (or no last-sync
time is stored); when the remote record is not newer there is no
download at all; and a local entry that no remote entry with the same
id strictly outranks survives the merge performed by the cycle. -/
theorem c6_upload_before_download
    (uploadOk : Bool) (latest : Option RemoteMeta) (lastSyncTime : Option Nat) :
    (uploadOk = false →
      performSmartSync uploadOk latest lastSyncTime = [SyncAction.upload])
  ∧ ((performSmartSync uploadOk latest lastSyncTime).head? = some SyncAction.upload)
  ∧ (SyncAction.download ∈ performSmartSync uploadOk latest lastSyncTime →
      uploadOk = true ∧ ∃ m, latest = some m ∧
        (lastSyncTime = none ∨ ∃ t, lastSyncTime = some t ∧ m.lastModified > t))
  ∧ (∀ m t, latest = some m → lastSyncTime = some t → m.lastModified ≤ t →
      performSmartSync uploadOk latest lastSyncTime = [SyncAction.upload])
  ∧ (∀ L R e ll, L.transactions = some ll → uniqueIds ll → e ∈ ll →
      (∀ r ∈ R.transactions.getD [], r.id = e.id →
        ¬(getTimestamp r > getTimestamp e)) →
      e ∈ (mergeWalletData L R).merged.transactions.getD []) := by
  refine ⟨?_, ?_, ?_, ?_, ?_⟩
  · intro h
    simp [performSmartSync, h]
  · rcases uploadOk with _ | _
    · simp [performSmartSync]
    · cases latest with
      | none => simp [performSmartSync]
      | some m =>
        by_cases h : shouldDownload lastSyncTime m.lastModified = true
        · simp [performSmartSync, h]
        · simp [performSmartSync, h]
  · intro hmem
    rcases uploadOk with _ | _
    · simp [performSmartSync] at hmem
    · refine ⟨rfl, ?_⟩
      cases latest with
      | none => simp [performSmartSync] at hmem
      | some m =>
        refine ⟨m, rfl, ?_⟩
        by_cases h : shouldDownload lastSyncTime m.lastModified = true
        · cases lastSyncTime with
          | none => exact Or.inl rfl
          | some t =>
            refine Or.inr ⟨t, rfl, ?_⟩
            simp only [shouldDownload] at h
            rcases h0 : m.lastModified with _ | k
            · rw [h0] at h
              simp at h
            · rw [h0] at h
              simp only [Nat.succ_ne_zero, if_false] at h
              exact of_decide_eq_true h
        · simp [performSmartSync, h] at hmem
  · intro m t hm ht hle
    subst hm
    subst ht
    have hsd : shouldDownload (some t) m.lastModified = false := by
      simp only [shouldDownload]
      by_cases h0 : m.lastModified = 0
      · simp [h0]
      · simp [h0, Nat.not_lt.2 hle]
    rcases uploadOk with _ | _
    · simp [performSmartSync]
    · simp [performSmartSync, hsd]
  · intro L R e ll hl hu he hts
    rw [mergeWalletData_transactions]
    cases hr : R.transactions with
    | none =>
      simp only [mergeOptCollection, hl, Option.getD_some]
      exact he
    | some rl =>
      rw [hr] at hts
      simp only [Option.getD_some] at hts
      simp only [mergeOptCollection, hl, Option.getD_some]
      exact mergeCollection_fst_mem_keep "transaction" ll rl (ll, []) e hu he he hts

theorem c6_upload_before_download_witness :
    performSmartSync false (some ⟨100⟩) (some 50) = [SyncAction.upload]
  ∧ performSmartSync true (some ⟨40⟩) (some 50) = [SyncAction.upload]
  ∧ c3wLocalTx ∈ (mergeWalletData
      { emptySnapshot with transactions := some [c3wLocalTx] }
      emptySnapshot).merged.transactions.getD [] :=
  ⟨(c6_upload_before_download false (some ⟨100⟩) (some 50)).1 rfl,
   (c6_upload_before_download true (some ⟨40⟩) (some 50)).2.2.2.1 ⟨40⟩ 50 rfl rfl
     (by decide),
   (c6_upload_before_download true none none).2.2.2.2
     { emptySnapshot with transactions := some [c3wLocalTx] } emptySnapshot
     c3wLocalTx [c3wLocalTx] rfl (by decide) (by decide)
     (by intro r hr2 hid2; cases hr2)⟩

/-! ## syncToConvex failure semantics -/

/-- C7: when sync is disabled or the user is unauthenticated,
`syncToConvex` returns a failure without any remote call or state
change; on any failure during an attempted upload it sets the error
field, leaves `lastSyncTime` (in-memory and persisted) unchanged, and
leaves `isEnabled` true. -/
theorem c7_sync_to_convex_failure (auth user : Bool) (st : SyncState) (kv : LocalKV)
    (outcome : UploadOutcome) (fid fname : String) (now : Nat) :
    ((auth = false ∨ user = false ∨ st.isEnabled = false) →
      (syncToConvex auth user st kv outcome fid fname now).success = false
      ∧ (syncToConvex auth user st kv outcome fid fname now).state = st
      ∧ (syncToConvex auth user st kv outcome fid fname now).kv = kv
      ∧ (syncToConvex auth user st kv outcome fid fname now).remoteCalls = [])
  ∧ (auth = true → user = true → st.isEnabled = true → outcome ≠ UploadOutcome.ok →
      (syncToConvex auth user st kv outcome fid fname now).success = false
      ∧ (syncToConvex auth user st kv outcome fid fname now).state.error.isSome = true
      ∧ (syncToConvex auth user st kv outcome fid fname now).state.lastSyncTime
          = st.lastSyncTime
      ∧ (syncToConvex auth user st kv outcome fid fname now).kv.lastSyncTimeKey
          = kv.lastSyncTimeKey
      ∧ (syncToConvex auth user st kv outcome fid fname now).state.isEnabled = true) := by
  constructor
  · intro h
    have hg : (!auth || !user || !st.isEnabled) = true := by
      rcases h with h | h | h <;> simp [h]
    simp [syncToConvex, hg]
  · intro ha hu he hno
    subst ha
    subst hu
    have hg : (!true || !true || !st.isEnabled) = false := by simp [he]
    cases outcome with
    | encryptFail => simp [syncToConvex, hg, he]
    | storeFail => simp [syncToConvex, hg, he, getDeviceInfo]
    | metaFail => simp [syncToConvex, hg, he, getDeviceInfo]
    | ok => exact absurd rfl hno

def c7State : SyncState :=
  { isEnabled := true, isPaused := false, isSyncing := false,
    lastSyncTime := some 42, error := none }

def c7KV : LocalKV :=
  { syncEnabled := some "true", syncPassword := none, lastSyncTimeKey := some 42,
    deviceId := none, deviceName := none, syncSalt := none, syncPaused := none }

theorem c7_sync_to_convex_failure_witness :
    (syncToConvex false true c7State c7KV UploadOutcome.ok "id" "nm" 99).remoteCalls = []
  ∧ (syncToConvex true true c7State c7KV UploadOutcome.storeFail "id" "nm" 99).state.lastSyncTime
      = some 42 :=
  ⟨((c7_sync_to_convex_failure false true c7State c7KV UploadOutcome.ok "id" "nm" 99).1
      (Or.inl rfl)).2.2.2,
   (((c7_sync_to_convex_failure true true c7State c7KV UploadOutcome.storeFail
      "id" "nm" 99).2 rfl rfl rfl (by decide)).2.2.1).trans (by decide)⟩

/-! ## disableSync -/

def c8KV : LocalKV :=
  { syncEnabled := some "true", syncPassword := some "pw", lastSyncTimeKey := some 7,
    deviceId := some "dev", deviceName := some "Chrome on Linux",
    syncSalt := some "salt", syncPaused := some "true" }

/-- C8 counterexample: `disableSync` removes only the enabled flag, the
stored passphrase and the last-sync marker; the stored salt
(`convex_sync_salt`) and the pause flag (`convex_sync_paused`) survive
it, contradicting the claim that all persisted sync state such as the
stored salt and pause flag is cleared. -/
theorem c8_disable_sync_counterexample :
    (disableSync c8KV).2.2.syncSalt = some "salt"
  ∧ (disableSync c8KV).2.2.syncPaused = some "true" :=
  ⟨rfl, rfl⟩

/-- C8 amended: `disableSync` always succeeds, clears the persisted
enabled flag, the stored manual passphrase and the last-sync marker,
and resets every field of `SyncState` to its initial value; the stored
salt, the pause flag and the device identity remain persisted
unchanged. -/
theorem c8_disable_sync_amended (kv : LocalKV) :
    (disableSync kv).1 = true
  ∧ (disableSync kv).2.1 = initialSyncState
  ∧ (disableSync kv).2.2.syncEnabled = none
  ∧ (disableSync kv).2.2.syncPassword = none
  ∧ (disableSync kv).2.2.lastSyncTimeKey = none
  ∧ (disableSync kv).2.2.syncSalt = kv.syncSalt
  ∧ (disableSync kv).2.2.syncPaused = kv.syncPaused
  ∧ (disableSync kv).2.2.deviceId = kv.deviceId
  ∧ (disableSync kv).2.2.deviceName = kv.deviceName :=
  ⟨rfl, rfl, rfl, rfl, rfl, rfl, rfl, rfl, rfl⟩

/-! ## Frame: absent remote fields leave local data untouched -/

/-- C9: each merge block runs only when the remote side carries the
corresponding field; an absent (or non-array) remote collection, an
undefined remote emergency fund, or an absent remote profile leaves
local data untouched in the merged snapshot. -/
theorem c9_remote_absent_frame (L R : Snapshot) :
    (R.transactions = none →
      (mergeWalletData L R).merged.transactions = L.transactions)
  ∧ (R.budgets = none → (mergeWalletData L R).merged.budgets = L.budgets)
  ∧ (R.goals = none → (mergeWalletData L R).merged.goals = L.goals)
  ∧ (R.debtAccounts = none →
      (mergeWalletData L R).merged.debtAccounts = L.debtAccounts)
  ∧ (R.creditAccounts = none →
      (mergeWalletData L R).merged.creditAccounts = L.creditAccounts)
  ∧ (R.debtCreditTransactions = none →
      (mergeWalletData L R).merged.debtCreditTransactions = L.debtCreditTransactions)
  ∧ (R.categories = none → (mergeWalletData L R).merged.categories = L.categories)
  ∧ (R.emergencyFund = none →
      (mergeWalletData L R).merged.emergencyFund = L.emergencyFund)
  ∧ (R.userProfile = none →
      (mergeWalletData L R).merged.userProfile = L.userProfile) := by
  refine ⟨?_, ?_, ?_, ?_, ?_, ?_, ?_, ?_, ?_⟩
  · intro h
    rw [mergeWalletData_transactions, h]
    rfl
  · intro h
    rw [mergeWalletData_budgets, h]
    rfl
  · intro h
    rw [mergeWalletData_goals, h]
    rfl
  · intro h
    rw [mergeWalletData_debtAccounts, h]
    rfl
  · intro h
    rw [mergeWalletData_creditAccounts, h]
    rfl
  · intro h
    rw [mergeWalletData_debtCreditTransactions, h]
    rfl
  · intro h
    rw [mergeWalletData_categories, h]
    rfl
  · intro h
    rw [mergeWalletData_emergencyFund, h]
    rfl
  · intro h
    rw [mergeWalletData_userProfile, h]
    rfl

theorem c9_remote_absent_frame_witness :
    (mergeWalletData c1Local emptySnapshot).merged.transactions = c1Local.transactions
  ∧ (mergeWalletData c1Local emptySnapshot).merged.emergencyFund = c1Local.emergencyFund :=
  ⟨(c9_remote_absent_frame c1Local emptySnapshot).1 rfl,
   (c9_remote_absent_frame c1Local emptySnapshot).2.2.2.2.2.2.2.1 rfl⟩

/-! ## Salt derivation properties -/

/-- C10: `generateConsistentSalt` is a pure function of the identity:
its output is exactly the first `min(32, n)` bytes of the UTF-8
encoding (of length `n`) of `userId ++ "_" ++ userEmail ++ "_convex_sync_salt"` —
a plain prefix with no hashing, shorter than 32 bytes when the encoded
string is, and identical across calls with the same identity. -/
theorem c10_generate_consistent_salt (userId userEmail : String) :
    (generateConsistentSalt userId userEmail).length
        = min 32 (utf8Bytes (userId ++ "_" ++ userEmail ++ "_convex_sync_salt")).length
  ∧ (∃ t, utf8Bytes (userId ++ "_" ++ userEmail ++ "_convex_sync_salt")
        = generateConsistentSalt userId userEmail ++ t)
  ∧ ((utf8Bytes (userId ++ "_" ++ userEmail ++ "_convex_sync_salt")).length ≤ 32 →
      generateConsistentSalt userId userEmail
        = utf8Bytes (userId ++ "_" ++ userEmail ++ "_convex_sync_salt"))
  ∧ (∀ u2 e2, u2 = userId → e2 = userEmail →
      generateConsistentSalt u2 e2 = generateConsistentSalt userId userEmail) := by
  refine ⟨?_, ?_, ?_, ?_⟩
  · simp [generateConsistentSalt, List.length_take]
  · exact ⟨(utf8Bytes (userId ++ "_" ++ userEmail ++ "_convex_sync_salt")).drop 32,
      (List.take_append_drop 32 _).symm⟩
  · intro h
    simp [generateConsistentSalt, List.take_of_length_le h]
  · intro u2 e2 h1 h2
    rw [h1, h2]

theorem c10_generate_consistent_salt_witness :
    generateConsistentSalt "u" "e" = utf8Bytes ("u" ++ "_" ++ "e" ++ "_convex_sync_salt") :=
  (c10_generate_consistent_salt "u" "e").2.2.1 (by decide)

end MyWallet
